import Mathlib

/-!
Verification of the claude-collab hub/client system against its source.

JavaScript strings are modeled as lists of UTF-16 code units (type JStr)
wherever character-level operations (trim, toLowerCase, substring, length)
matter, and as opaque String values at the wire-protocol layer where only
field equality matters.  Dates are modeled as integer epoch milliseconds;
every call of Date.now() / new Date() in the source becomes an explicit
`now` parameter.  JavaScript Map objects (which iterate in insertion
order) are modeled as association lists, and thrown exceptions as Except
values.
-/

namespace ClaudeCollab

/-- JavaScript string, modeled as a list of characters. -/
abbrev JStr := List Char

/-- Whitespace predicate used by String.prototype.trim. -/
def jsWhitespace (c : Char) : Bool := c.isWhitespace

/-- Model of s.trimStart(): drop leading whitespace. -/
def trimLeft (s : JStr) : JStr := s.dropWhile jsWhitespace

/-- Model of s.trimEnd(): drop trailing whitespace. -/
def trimRight (s : JStr) : JStr := (s.reverse.dropWhile jsWhitespace).reverse

/-- Model of s.trim(). -/
def jtrim (s : JStr) : JStr := trimRight (trimLeft s)

/-- Model of s.toLowerCase() (per-character lowering). -/
def jlower (s : JStr) : JStr := s.map Char.toLower

/-- Domain error taxonomy from src/shared/errors/domain-errors.ts
(the constructors carry the arguments the source constructors take). -/
inductive DomainError where
  | validationError (field message : String)
  | memberNotFoundError (memberId : String)
  | teamNotFoundError (teamName : JStr)
  | questionAlreadyAnsweredError (questionId : String)
  | questionNotFoundError (questionId : String)
  deriving Repr, DecidableEq

/-- Configuration constant config.communication.maxMessageLength from
src/config/index.ts. -/
def maxMessageLength : Nat := 50000

/-- Configuration constant config.communication.defaultTimeout from
src/config/index.ts. -/
def defaultTimeout : Int := 30000

/-- Message format from the MessageContent value object. -/
inductive MessageFormat where
  | plain
  | markdown
  deriving Repr, DecidableEq

/-- MessageContent value object: immutable pair of text and format. -/
structure MessageContent where
  text : JStr
  format : MessageFormat
  deriving Repr, DecidableEq

/-- MessageContent.create from the value-object source: trims the text,
rejects empty or oversized trimmed text, otherwise stores the trimmed
text with the given format. -/
def MessageContent.create (text : JStr) (format : MessageFormat) :
    Except DomainError MessageContent :=
  let trimmedText := jtrim text
  if trimmedText.isEmpty then
    .error (.validationError "text" "Message content cannot be empty")
  else if trimmedText.length > maxMessageLength then
    .error (.validationError "text"
      "Message content exceeds maximum length of 50000 characters")
  else
    .ok ⟨trimmedText, format⟩

/-- MessageContent.preview from the value-object source: the text itself
when at most 100 characters, otherwise substring(0, 97) followed by three
dots. -/
def MessageContent.preview (mc : MessageContent) : JStr :=
  if mc.text.length ≤ 100 then mc.text
  else mc.text.take 97 ++ "...".toList

/-- TeamId.create from src/shared/types/branded-types.ts:
id.toLowerCase().trim(), with no validation and no failure path. -/
def TeamId.create (id : JStr) : JStr := jtrim (jlower id)

/-- Character class [a-z] of the TeamId validation regex. -/
def isAsciiLowerAlpha (c : Char) : Bool := 'a' ≤ c && c ≤ 'z'

/-- Character class [0-9] of the TeamId validation regex. -/
def isAsciiDigit (c : Char) : Bool := '0' ≤ c && c ≤ '9'

/-- TeamId.isValid from src/shared/types/branded-types.ts: the regex
test of a-z followed by a-z, 0-9 or hyphen characters, applied to
id.toLowerCase().trim(). -/
def TeamId.isValid (id : JStr) : Bool :=
  match jtrim (jlower id) with
  | [] => false
  | c :: cs => isAsciiLowerAlpha c &&
      cs.all fun d => isAsciiLowerAlpha d || isAsciiDigit d || d == '-'

/-- createTeamId from src/shared/utils/id-generator.ts: delegates to
TeamId.create. -/
def createTeamId (name : JStr) : JStr := TeamId.create name

-- Basic facts about trim and lowercasing used for the TeamId claims.

theorem toNat_ofNat_valid {n : Nat} (h : n.isValidChar) :
    (Char.ofNat n).toNat = n := by
  simp [Char.ofNat, h, Char.ofNatAux, Char.toNat, UInt32.toNat,
    BitVec.toNat_ofNatLt]

theorem toLower_toLower (c : Char) : c.toLower.toLower = c.toLower := by
  simp only [Char.toLower]
  split
  · rename_i h
    have hvalid : (c.toNat + 32).isValidChar := by
      left
      have : c.toNat ≤ 90 := h.2
      omega
    rw [toNat_ofNat_valid hvalid]
    rw [if_neg (by omega)]
  · rfl

theorem dropWhile_idem (p : Char → Bool) (l : List Char) :
    (l.dropWhile p).dropWhile p = l.dropWhile p := by
  induction l with
  | nil => rfl
  | cons c cs ih =>
    by_cases h : p c
    · simpa [List.dropWhile_cons, h] using ih
    · simp [List.dropWhile_cons, h]

theorem trimRight_idem (s : JStr) :
    trimRight (trimRight s) = trimRight s := by
  simp [trimRight, dropWhile_idem]

theorem trimLeft_trimRight_self (l : JStr)
    (h : l.dropWhile jsWhitespace = l) :
    (trimRight l).dropWhile jsWhitespace = trimRight l := by
  cases l with
  | nil => rfl
  | cons c cs =>
    have hc : jsWhitespace c = false := by
      have := List.dropWhile_eq_self_iff.mp h (by simp)
      simpa using this
    simp only [trimRight, List.reverse_cons, List.dropWhile_append]
    by_cases hall : cs.reverse.dropWhile jsWhitespace = []
    · simp [hall, List.dropWhile_cons, hc]
    · simp [hall, List.dropWhile_cons, hc]

theorem jtrim_idem (s : JStr) : jtrim (jtrim s) = jtrim s := by
  have h1 : (trimLeft s).dropWhile jsWhitespace = trimLeft s :=
    dropWhile_idem _ _
  show trimRight (trimLeft (trimRight (trimLeft s))) = trimRight (trimLeft s)
  rw [show trimLeft (trimRight (trimLeft s)) = trimRight (trimLeft s) from
    trimLeft_trimRight_self _ h1, trimRight_idem]

theorem mem_of_mem_trimRight {c : Char} {l : JStr} (h : c ∈ trimRight l) :
    c ∈ l := by
  have := (List.dropWhile_sublist (l := l.reverse) (p := jsWhitespace)).subset
  simp only [trimRight, List.mem_reverse] at h
  simpa using this h

theorem mem_of_mem_jtrim {c : Char} {l : JStr} (h : c ∈ jtrim l) : c ∈ l := by
  have h1 := mem_of_mem_trimRight h
  have := (List.dropWhile_sublist (l := l) (p := jsWhitespace)).subset
  exact this h1

theorem jlower_eq_self_of (s : JStr) (h : ∀ c ∈ s, Char.toLower c = c) :
    jlower s = s := by
  induction s with
  | nil => rfl
  | cons c cs ih =>
    simp only [jlower, List.map_cons] at *
    rw [h c (by simp), ih fun d hd => h d (by simp [hd])]

theorem createTeamId_idem (name : JStr) :
    createTeamId (createTeamId name) = createTeamId name := by
  show jtrim (jlower (jtrim (jlower name))) = jtrim (jlower name)
  have hfix : jlower (jtrim (jlower name)) = jtrim (jlower name) := by
    apply jlower_eq_self_of
    intro c hc
    have hmem : c ∈ jlower name := mem_of_mem_jtrim hc
    obtain ⟨d, _, rfl⟩ := List.mem_map.mp hmem
    exact toLower_toLower d
  rw [hfix, jtrim_idem]

-- Entities and in-memory repositories.

/-- Finite-map helper: JavaScript Map lookup over an insertion-ordered
association list. -/
def mapGet {κ ν : Type} [DecidableEq κ] : List (κ × ν) → κ → Option ν
  | [], _ => none
  | (k, v) :: rest, key => if k = key then some v else mapGet rest key

/-- Finite-map helper: JavaScript Map.set, which overwrites in place
(keeping the original insertion position) or appends a new entry. -/
def mapSet {κ ν : Type} [DecidableEq κ] : List (κ × ν) → κ → ν → List (κ × ν)
  | [], key, v => [(key, v)]
  | (k, w) :: rest, key, v =>
    if k = key then (k, v) :: rest else (k, w) :: mapSet rest key v

/-- Member status enumeration from the Member entity. -/
inductive MemberStatus where
  | online
  | idle
  | offline
  deriving Repr, DecidableEq

/-- Member entity fields. -/
structure Member where
  id : String
  teamId : JStr
  displayName : JStr
  joinedAt : Int
  status : MemberStatus
  lastActivityAt : Int
  deriving Repr, DecidableEq

/-- Member.recordActivity: refresh the last-activity time and promote
IDLE back to ONLINE. -/
def Member.recordActivity (m : Member) (now : Int) : Member :=
  let m1 := { m with lastActivityAt := now }
  if m1.status = .idle then { m1 with status := .online } else m1

/-- Member.goOffline: set status OFFLINE. -/
def Member.goOffline (m : Member) : Member := { m with status := .offline }

/-- Team entity fields; the Set of member ids is an insertion-ordered
duplicate-free list. -/
structure Team where
  id : JStr
  name : JStr
  createdAt : Int
  memberIds : List String
  deriving Repr, DecidableEq

/-- Team.create: rejects a name that is empty after trimming, otherwise
starts with an empty member set. -/
def Team.create (id : JStr) (name : JStr) (createdAt : Int) :
    Except String Team :=
  if (jtrim name).isEmpty then .error "Team name cannot be empty"
  else .ok ⟨id, name, createdAt, []⟩

/-- Team.addMember: Set.add semantics (no duplicates). -/
def Team.addMember (t : Team) (memberId : String) : Team :=
  if memberId ∈ t.memberIds then t
  else { t with memberIds := t.memberIds ++ [memberId] }

/-- Team.removeMember: Set.delete semantics. -/
def Team.removeMember (t : Team) (memberId : String) : Team :=
  { t with memberIds := t.memberIds.filter fun x => x ≠ memberId }

/-- Team.getOtherMemberIds: every member id except the excluded one. -/
def Team.getOtherMemberIds (t : Team) (excludeMemberId : String) :
    List String :=
  t.memberIds.filter fun x => x ≠ excludeMemberId

/-- Team repository state (in-memory Map from team id to Team). -/
structure TeamRepoState where
  teams : List (JStr × Team)
  deriving Repr, DecidableEq

/-- InMemoryTeamRepository.findById. -/
def teamRepoFindById (st : TeamRepoState) (id : JStr) : Option Team :=
  mapGet st.teams id

/-- InMemoryTeamRepository.findByName: lookup under the normalized id. -/
def teamRepoFindByName (st : TeamRepoState) (name : JStr) : Option Team :=
  mapGet st.teams (createTeamId name)

/-- InMemoryTeamRepository.save. -/
def teamRepoSave (st : TeamRepoState) (t : Team) : TeamRepoState :=
  ⟨mapSet st.teams t.id t⟩

/-- InMemoryTeamRepository.getOrCreate: return the existing team under
the normalized name, or create (and save) a fresh one named with the
trimmed name. -/
def teamRepoGetOrCreate (st : TeamRepoState) (name : JStr) (now : Int) :
    Except String (Team × TeamRepoState) :=
  match teamRepoFindByName st name with
  | some existing => .ok (existing, st)
  | none =>
    let teamId := createTeamId name
    match Team.create teamId (jtrim name) now with
    | .error e => .error e
    | .ok team => .ok (team, teamRepoSave st team)

/-- Question status enumeration. -/
inductive QuestionStatus where
  | pending
  | answered
  | timeout
  | cancelled
  deriving Repr, DecidableEq

/-- Question entity fields. -/
structure Question where
  id : String
  fromMemberId : String
  toTeamId : JStr
  content : MessageContent
  createdAt : Int
  status : QuestionStatus
  answeredAt : Option Int
  answeredByMemberId : Option String
  deriving Repr, DecidableEq

/-- Question.create: a fresh question starts PENDING with no answer
fields. -/
def Question.create (id fromMemberId : String) (toTeamId : JStr)
    (content : MessageContent) (createdAt : Int) : Question :=
  ⟨id, fromMemberId, toTeamId, content, createdAt, .pending, none, none⟩

/-- Question.isPending getter. -/
def Question.isPending (q : Question) : Bool := q.status = .pending

/-- Question.canBeAnswered getter. -/
def Question.canBeAnswered (q : Question) : Bool := q.status = .pending

/-- Question.ageMs getter (Date.now() passed explicitly). -/
def Question.ageMs (q : Question) (now : Int) : Int := now - q.createdAt

/-- Question.markAsAnswered: throws QuestionAlreadyAnswered unless the
status is PENDING; otherwise records status, answeredAt and the
answering member. -/
def Question.markAsAnswered (q : Question) (answeredByMemberId : String)
    (now : Int) : Except DomainError Question :=
  if ¬ q.canBeAnswered then .error (.questionAlreadyAnsweredError q.id)
  else .ok { q with
    status := .answered
    answeredAt := some now
    answeredByMemberId := some answeredByMemberId }

/-- Question.markAsTimedOut: only a PENDING question changes status. -/
def Question.markAsTimedOut (q : Question) : Question :=
  if q.status = .pending then { q with status := .timeout } else q

/-- Question.markAsCancelled: only a PENDING question changes status. -/
def Question.markAsCancelled (q : Question) : Question :=
  if q.status = .pending then { q with status := .cancelled } else q

/-- Question repository state (in-memory Map from question id to
Question). -/
abbrev QuestionRepoState := List (String × Question)

/-- InMemoryQuestionRepository.findPendingByTeamId: the stored questions
addressed to the team whose status is PENDING, in insertion order. -/
def questionRepoFindPendingByTeamId (st : QuestionRepoState)
    (teamId : JStr) : List Question :=
  (st.map Prod.snd).filter fun q => q.toTeamId == teamId && q.isPending

/-- InMemoryQuestionRepository.markTimedOut: walk all stored questions;
any PENDING question strictly older than olderThanMs is marked timed out
and counted. -/
def questionRepoMarkTimedOut (now olderThanMs : Int) :
    QuestionRepoState → QuestionRepoState × Nat
  | [] => ([], 0)
  | (k, q) :: rest =>
    let (rest2, c) := questionRepoMarkTimedOut now olderThanMs rest
    if q.isPending && decide (now - q.createdAt > olderThanMs) then
      ((k, q.markAsTimedOut) :: rest2, c + 1)
    else
      ((k, q) :: rest2, c)

-- Application use cases over the in-memory repositories.

/-- Combined repository state owned by the hub: members, teams and
questions. -/
structure SystemState where
  members : List (String × Member)
  teams : List (JStr × Team)
  questions : QuestionRepoState
  deriving Repr, DecidableEq

/-- Input DTO of AskQuestion; format is optional (defaulting to
markdown). -/
structure AskQuestionInput where
  fromMemberId : String
  toTeamName : JStr
  content : JStr
  format : Option MessageFormat
  deriving Repr, DecidableEq

/-- Output DTO of AskQuestion. -/
structure AskQuestionOutput where
  questionId : String
  toTeamId : JStr
  status : QuestionStatus
  createdAt : Int
  deriving Repr, DecidableEq

/-- AskQuestionUseCase.execute: member lookup, team lookup under the
normalized name, own-team rejection, content construction, question
persistence and member-activity recording, in source order.  The fresh
question id (a uuid in the source) and the clock are explicit
parameters. -/
def askQuestionExecute (st : SystemState) (input : AskQuestionInput)
    (freshQuestionId : String) (now : Int) :
    Except DomainError (AskQuestionOutput × SystemState) :=
  match mapGet st.members input.fromMemberId with
  | none => .error (.memberNotFoundError input.fromMemberId)
  | some member =>
    let targetTeamId := createTeamId input.toTeamName
    match mapGet st.teams targetTeamId with
    | none => .error (.teamNotFoundError input.toTeamName)
    | some _targetTeam =>
      if member.teamId = targetTeamId then
        .error (.validationError "toTeamName"
          "Cannot ask question to your own team")
      else
        match MessageContent.create input.content
            (input.format.getD .markdown) with
        | .error e => .error e
        | .ok content =>
          let question := Question.create freshQuestionId
            input.fromMemberId targetTeamId content now
          let st1 := { st with
            questions := mapSet st.questions question.id question }
          let member1 := member.recordActivity now
          let st2 := { st1 with
            members := mapSet st1.members member1.id member1 }
          .ok ({ questionId := freshQuestionId
                 toTeamId := targetTeamId
                 status := question.status
                 createdAt := question.createdAt }, st2)

/-- Inbox item DTO produced by GetInbox. -/
structure InboxQuestionItem where
  questionId : String
  fromMemberId : String
  fromDisplayName : JStr
  fromTeamName : JStr
  content : JStr
  format : MessageFormat
  status : QuestionStatus
  createdAt : Int
  ageMs : Int
  deriving Repr, DecidableEq

/-- Output DTO of GetInbox. -/
structure GetInboxOutput where
  teamId : JStr
  teamName : JStr
  questions : List InboxQuestionItem
  totalCount : Nat
  pendingCount : Nat
  deriving Repr, DecidableEq

/-- Insertion step of the stable sort by creation time descending. -/
def insertDescByCreatedAt (x : InboxQuestionItem) :
    List InboxQuestionItem → List InboxQuestionItem
  | [] => [x]
  | y :: ys =>
    if x.createdAt ≥ y.createdAt then x :: y :: ys
    else y :: insertDescByCreatedAt x ys

/-- Stable sort by creation time descending, modeling
Array.prototype.sort with comparator b.createdAt - a.createdAt. -/
def sortDescByCreatedAt : List InboxQuestionItem → List InboxQuestionItem
  | [] => []
  | x :: xs => insertDescByCreatedAt x (sortDescByCreatedAt xs)

/-- GetInboxUseCase.execute: member and team lookups, fetch via
findPendingByTeamId, the includeAnswered filter, DTO mapping with
Unknown defaults on failed lookups, sort by creation time descending,
and both counts. -/
def getInboxExecute (st : SystemState) (memberId : String) (teamId : JStr)
    (includeAnswered : Bool) (now : Int) :
    Except DomainError GetInboxOutput :=
  match mapGet st.members memberId with
  | none => .error (.memberNotFoundError memberId)
  | some _member =>
    match mapGet st.teams teamId with
    | none => .error (.teamNotFoundError teamId)
    | some team =>
      let allQuestions := questionRepoFindPendingByTeamId st.questions teamId
      let questions :=
        if includeAnswered then allQuestions
        else allQuestions.filter fun q => q.isPending
      let questionItems := questions.map fun q =>
        let fromMember := mapGet st.members q.fromMemberId
        let fromTeam := match fromMember with
          | some m => mapGet st.teams m.teamId
          | none => none
        { questionId := q.id
          fromMemberId := q.fromMemberId
          fromDisplayName := (fromMember.map Member.displayName).getD
            "Unknown".toList
          fromTeamName := (fromTeam.map Team.name).getD "Unknown".toList
          content := q.content.text
          format := q.content.format
          status := q.status
          createdAt := q.createdAt
          ageMs := q.ageMs now : InboxQuestionItem }
      let sorted := sortDescByCreatedAt questionItems
      let pendingCount :=
        (sorted.filter fun it => it.status == QuestionStatus.pending).length
      .ok { teamId := team.id
            teamName := team.name
            questions := sorted
            totalCount := sorted.length
            pendingCount := pendingCount }

-- Wire protocol (message-protocol.ts).  serializeMessage is
-- JSON.stringify and the parse functions are JSON.parse (plus, for
-- client messages, validateClientMessage).  JSON.stringify/JSON.parse
-- are a bijection between JSON values and their texts, so the wire is
-- modeled at the level of JSON values; undefined-valued fields are
-- dropped by JSON.stringify and therefore never serialized.

/-- JSON value (no null or boolean is ever produced by this protocol). -/
inductive Json where
  | str (s : String)
  | num (n : Int)
  | arr (items : List Json)
  | obj (fields : List (String × Json))

/-- Field access on a parsed JSON object. -/
def Json.getField : Json → String → Option Json
  | .obj fields, key => mapGet fields key
  | _, _ => none

/-- Read a JSON string. -/
def Json.asStr : Json → Option String
  | .str s => some s
  | _ => none

/-- Read a non-negative JSON number. -/
def Json.asNat : Json → Option Nat
  | .num (Int.ofNat n) => some n
  | _ => none

/-- Read a JSON number. -/
def Json.asInt : Json → Option Int
  | .num n => some n
  | _ => none

/-- Read a JSON array. -/
def Json.asArr : Json → Option (List Json)
  | .arr items => some items
  | _ => none

/-- Wire member info block shared by several hub messages. -/
structure MemberInfo where
  memberId : String
  teamId : String
  teamName : String
  displayName : String
  status : MemberStatus
  deriving Repr, DecidableEq

/-- Wire inbox entry of the INBOX message. -/
structure InboxQuestionInfo where
  questionId : String
  fromMember : MemberInfo
  content : String
  format : MessageFormat
  status : QuestionStatus
  createdAt : String
  ageMs : Int
  deriving Repr, DecidableEq

/-- Client-to-hub messages (the field named from in the source is named
fromMember here because from is a Lean keyword). -/
inductive ClientMessage where
  | join (teamName displayName : String)
  | leave
  | ask (toTeam content : String) (format : MessageFormat)
      (requestId : String)
  | reply (questionId content : String) (format : MessageFormat)
  | ping
  | getInbox (requestId : String)
  deriving Repr, DecidableEq

/-- Hub-to-client messages. -/
inductive HubMessage where
  | joined (member : MemberInfo) (memberCount : Nat)
  | left (memberId : String)
  | memberJoined (member : MemberInfo)
  | memberLeft (memberId teamId : String)
  | question (questionId : String) (fromMember : MemberInfo)
      (content : String) (format : MessageFormat) (createdAt : String)
  | answer (questionId : String) (fromMember : MemberInfo)
      (content : String) (format : MessageFormat) (answeredAt : String)
      (requestId : Option String)
  | questionSent (questionId toTeamId : String) (status : QuestionStatus)
      (requestId : String)
  | inbox (questions : List InboxQuestionInfo)
      (totalCount pendingCount : Nat) (requestId : String)
  | pong (timestamp : String)
  | error (code message : String) (requestId : Option String)
  deriving Repr, DecidableEq

/-- String value of the MemberStatus enum. -/
def MemberStatus.toWire : MemberStatus → String
  | .online => "ONLINE"
  | .idle => "IDLE"
  | .offline => "OFFLINE"

/-- Enum member of a MemberStatus wire string. -/
def MemberStatus.fromWire : String → Option MemberStatus
  | "ONLINE" => some .online
  | "IDLE" => some .idle
  | "OFFLINE" => some .offline
  | _ => none

/-- String value of the QuestionStatus enum. -/
def QuestionStatus.toWire : QuestionStatus → String
  | .pending => "PENDING"
  | .answered => "ANSWERED"
  | .timeout => "TIMEOUT"
  | .cancelled => "CANCELLED"

/-- Enum member of a QuestionStatus wire string. -/
def QuestionStatus.fromWire : String → Option QuestionStatus
  | "PENDING" => some .pending
  | "ANSWERED" => some .answered
  | "TIMEOUT" => some .timeout
  | "CANCELLED" => some .cancelled
  | _ => none

/-- String value of a MessageFormat. -/
def MessageFormat.toWire : MessageFormat → String
  | .plain => "plain"
  | .markdown => "markdown"

/-- MessageFormat of a wire string. -/
def MessageFormat.fromWire : String → Option MessageFormat
  | "plain" => some .plain
  | "markdown" => some .markdown
  | _ => none

/-- JSON object of a wire MemberInfo. -/
def MemberInfo.toJson (m : MemberInfo) : Json :=
  .obj [("memberId", .str m.memberId), ("teamId", .str m.teamId),
    ("teamName", .str m.teamName), ("displayName", .str m.displayName),
    ("status", .str m.status.toWire)]

/-- JSON object of a wire InboxQuestionInfo. -/
def InboxQuestionInfo.toJson (q : InboxQuestionInfo) : Json :=
  .obj [("questionId", .str q.questionId),
    ("from", q.fromMember.toJson),
    ("content", .str q.content),
    ("format", .str q.format.toWire),
    ("status", .str q.status.toWire),
    ("createdAt", .str q.createdAt),
    ("ageMs", .num q.ageMs)]

/-- serializeMessage on a client message: the JSON value JSON.stringify
produces for the message object. -/
def serializeClientMessage : ClientMessage → Json
  | .join teamName displayName =>
    .obj [("type", .str "JOIN"), ("teamName", .str teamName),
      ("displayName", .str displayName)]
  | .leave => .obj [("type", .str "LEAVE")]
  | .ask toTeam content format requestId =>
    .obj [("type", .str "ASK"), ("toTeam", .str toTeam),
      ("content", .str content), ("format", .str format.toWire),
      ("requestId", .str requestId)]
  | .reply questionId content format =>
    .obj [("type", .str "REPLY"), ("questionId", .str questionId),
      ("content", .str content), ("format", .str format.toWire)]
  | .ping => .obj [("type", .str "PING")]
  | .getInbox requestId =>
    .obj [("type", .str "GET_INBOX"), ("requestId", .str requestId)]

/-- Optional requestId field: JSON.stringify drops an undefined field. -/
def requestIdField : Option String → List (String × Json)
  | some r => [("requestId", .str r)]
  | none => []

/-- serializeMessage on a hub message. -/
def serializeHubMessage : HubMessage → Json
  | .joined member memberCount =>
    .obj [("type", .str "JOINED"), ("member", member.toJson),
      ("memberCount", .num (Int.ofNat memberCount))]
  | .left memberId =>
    .obj [("type", .str "LEFT"), ("memberId", .str memberId)]
  | .memberJoined member =>
    .obj [("type", .str "MEMBER_JOINED"), ("member", member.toJson)]
  | .memberLeft memberId teamId =>
    .obj [("type", .str "MEMBER_LEFT"), ("memberId", .str memberId),
      ("teamId", .str teamId)]
  | .question questionId fromMember content format createdAt =>
    .obj [("type", .str "QUESTION"), ("questionId", .str questionId),
      ("from", fromMember.toJson), ("content", .str content),
      ("format", .str format.toWire), ("createdAt", .str createdAt)]
  | .answer questionId fromMember content format answeredAt requestId =>
    .obj ([("type", .str "ANSWER"), ("questionId", .str questionId),
      ("from", fromMember.toJson), ("content", .str content),
      ("format", .str format.toWire), ("answeredAt", .str answeredAt)] ++
      requestIdField requestId)
  | .questionSent questionId toTeamId status requestId =>
    .obj [("type", .str "QUESTION_SENT"), ("questionId", .str questionId),
      ("toTeamId", .str toTeamId), ("status", .str status.toWire),
      ("requestId", .str requestId)]
  | .inbox questions totalCount pendingCount requestId =>
    .obj [("type", .str "INBOX"),
      ("questions", .arr (questions.map InboxQuestionInfo.toJson)),
      ("totalCount", .num (Int.ofNat totalCount)),
      ("pendingCount", .num (Int.ofNat pendingCount)),
      ("requestId", .str requestId)]
  | .pong timestamp =>
    .obj [("type", .str "PONG"), ("timestamp", .str timestamp)]
  | .error code message requestId =>
    .obj ([("type", .str "ERROR"), ("code", .str code),
      ("message", .str message)] ++ requestIdField requestId)

/-- Parsing of a wire MemberInfo block: the JSON.parse cast exposes the
object fields exactly as consumers of the typed message read them. -/
def parseMemberInfo (j : Json) : Option MemberInfo := do
  let memberId ← (j.getField "memberId").bind Json.asStr
  let teamId ← (j.getField "teamId").bind Json.asStr
  let teamName ← (j.getField "teamName").bind Json.asStr
  let displayName ← (j.getField "displayName").bind Json.asStr
  let status ← ((j.getField "status").bind Json.asStr).bind
    MemberStatus.fromWire
  pure ⟨memberId, teamId, teamName, displayName, status⟩

/-- Parsing of a wire inbox entry. -/
def parseInboxQuestionInfo (j : Json) : Option InboxQuestionInfo := do
  let questionId ← (j.getField "questionId").bind Json.asStr
  let fromMember ← (j.getField "from").bind parseMemberInfo
  let content ← (j.getField "content").bind Json.asStr
  let format ← ((j.getField "format").bind Json.asStr).bind
    MessageFormat.fromWire
  let status ← ((j.getField "status").bind Json.asStr).bind
    QuestionStatus.fromWire
  let createdAt ← (j.getField "createdAt").bind Json.asStr
  let ageMs ← (j.getField "ageMs").bind Json.asInt
  pure ⟨questionId, fromMember, content, format, status, createdAt, ageMs⟩

/-- Parsing of the INBOX questions array, element by element. -/
def parseInboxList : List Json → Option (List InboxQuestionInfo)
  | [] => some []
  | j :: rest => do
    let q ← parseInboxQuestionInfo j
    let qs ← parseInboxList rest
    pure (q :: qs)

/-- parseClientMessage: JSON.parse plus validateClientMessage (which
rejects a missing or unknown type); the typed fields are the ones the
hub-side dispatch reads. -/
def parseClientMessage (j : Json) : Option ClientMessage :=
  match (j.getField "type").bind Json.asStr with
  | some "JOIN" => do
    let teamName ← (j.getField "teamName").bind Json.asStr
    let displayName ← (j.getField "displayName").bind Json.asStr
    pure (.join teamName displayName)
  | some "LEAVE" => pure .leave
  | some "ASK" => do
    let toTeam ← (j.getField "toTeam").bind Json.asStr
    let content ← (j.getField "content").bind Json.asStr
    let format ← ((j.getField "format").bind Json.asStr).bind
      MessageFormat.fromWire
    let requestId ← (j.getField "requestId").bind Json.asStr
    pure (.ask toTeam content format requestId)
  | some "REPLY" => do
    let questionId ← (j.getField "questionId").bind Json.asStr
    let content ← (j.getField "content").bind Json.asStr
    let format ← ((j.getField "format").bind Json.asStr).bind
      MessageFormat.fromWire
    pure (.reply questionId content format)
  | some "PING" => pure .ping
  | some "GET_INBOX" => do
    let requestId ← (j.getField "requestId").bind Json.asStr
    pure (.getInbox requestId)
  | _ => none

/-- parseHubMessage: JSON.parse with the typed fields the client-side
dispatch reads; an optional requestId is read when present. -/
def parseHubMessage (j : Json) : Option HubMessage :=
  match (j.getField "type").bind Json.asStr with
  | some "JOINED" => do
    let member ← (j.getField "member").bind parseMemberInfo
    let memberCount ← (j.getField "memberCount").bind Json.asNat
    pure (.joined member memberCount)
  | some "LEFT" => do
    let memberId ← (j.getField "memberId").bind Json.asStr
    pure (.left memberId)
  | some "MEMBER_JOINED" => do
    let member ← (j.getField "member").bind parseMemberInfo
    pure (.memberJoined member)
  | some "MEMBER_LEFT" => do
    let memberId ← (j.getField "memberId").bind Json.asStr
    let teamId ← (j.getField "teamId").bind Json.asStr
    pure (.memberLeft memberId teamId)
  | some "QUESTION" => do
    let questionId ← (j.getField "questionId").bind Json.asStr
    let fromMember ← (j.getField "from").bind parseMemberInfo
    let content ← (j.getField "content").bind Json.asStr
    let format ← ((j.getField "format").bind Json.asStr).bind
      MessageFormat.fromWire
    let createdAt ← (j.getField "createdAt").bind Json.asStr
    pure (.question questionId fromMember content format createdAt)
  | some "ANSWER" => do
    let questionId ← (j.getField "questionId").bind Json.asStr
    let fromMember ← (j.getField "from").bind parseMemberInfo
    let content ← (j.getField "content").bind Json.asStr
    let format ← ((j.getField "format").bind Json.asStr).bind
      MessageFormat.fromWire
    let answeredAt ← (j.getField "answeredAt").bind Json.asStr
    let requestId := (j.getField "requestId").bind Json.asStr
    pure (.answer questionId fromMember content format answeredAt
      requestId)
  | some "QUESTION_SENT" => do
    let questionId ← (j.getField "questionId").bind Json.asStr
    let toTeamId ← (j.getField "toTeamId").bind Json.asStr
    let status ← ((j.getField "status").bind Json.asStr).bind
      QuestionStatus.fromWire
    let requestId ← (j.getField "requestId").bind Json.asStr
    pure (.questionSent questionId toTeamId status requestId)
  | some "INBOX" => do
    let qjson ← (j.getField "questions").bind Json.asArr
    let questions ← parseInboxList qjson
    let totalCount ← (j.getField "totalCount").bind Json.asNat
    let pendingCount ← (j.getField "pendingCount").bind Json.asNat
    let requestId ← (j.getField "requestId").bind Json.asStr
    pure (.inbox questions totalCount pendingCount requestId)
  | some "PONG" => do
    let timestamp ← (j.getField "timestamp").bind Json.asStr
    pure (.pong timestamp)
  | some "ERROR" => do
    let code ← (j.getField "code").bind Json.asStr
    let message ← (j.getField "message").bind Json.asStr
    let requestId := (j.getField "requestId").bind Json.asStr
    pure (.error code message requestId)
  | _ => none

theorem parseMemberInfo_toJson (m : MemberInfo) :
    parseMemberInfo m.toJson = some m := by
  cases m with
  | mk a b c d st => cases st <;> rfl

theorem parseInboxQuestionInfo_toJson (q : InboxQuestionInfo) :
    parseInboxQuestionInfo q.toJson = some q := by
  cases q with
  | mk qid fm content format status createdAt ageMs =>
    cases fm with
    | mk a b c d mst =>
      cases mst <;> cases format <;> cases status <;> cases ageMs <;> rfl

theorem parseInboxList_map_toJson (qs : List InboxQuestionInfo) :
    parseInboxList (qs.map InboxQuestionInfo.toJson) = some qs := by
  induction qs with
  | nil => rfl
  | cons q rest ih =>
    simp [parseInboxList, parseInboxQuestionInfo_toJson, ih]

-- Hub client (hub-client.ts): request/response correlation.  Each
-- waitForResponse call stores a pending waiter under a fresh uuid key
-- (modeled by a numeric wid) in the insertion-ordered pendingRequests
-- Map, arms a timeout, and re-installs the socket message listener
-- (removeAllListeners followed by ws.on) so that the listener in force
-- is the checkFilter closure of the most recently registered waiter;
-- checkFilter tests only its own filter and then always calls the
-- original handleMessage.

/-- Pending waiter: the Map key stands in as a numeric wid, and the
matching predicate is the filter stored with the request. -/
structure Waiter where
  wid : Nat
  filter : HubMessage → Bool

/-- Observer callback invocations of HubClient.handleMessage. -/
inductive ObserverEvent where
  | onQuestion (m : HubMessage)
  | onAnswer (m : HubMessage)
  | onMemberJoined (member : MemberInfo)
  | onMemberLeft (memberId teamId : String)
  | onError (code message : String)

/-- Observer dispatch switch of HubClient.handleMessage: QUESTION,
ANSWER, MEMBER_JOINED, MEMBER_LEFT and ERROR reach a callback; the
other message types reach none. -/
def observerDispatch : HubMessage → Option ObserverEvent
  | .question a b c d e => some (.onQuestion (.question a b c d e))
  | .answer a b c d e f => some (.onAnswer (.answer a b c d e f))
  | .memberJoined member => some (.onMemberJoined member)
  | .memberLeft memberId teamId => some (.onMemberLeft memberId teamId)
  | .error code message _ => some (.onError code message)
  | _ => none

/-- Map.delete on the pendingRequests map. -/
def deleteWaiter : List Waiter → Nat → List Waiter
  | [], _ => []
  | w :: rest, wid => if w.wid = wid then rest else w :: deleteWaiter rest wid

/-- Outcome of dispatching one inbound message: the waiters still
registered, the wids whose promise was resolved with the message, the
wids whose map entry was deleted and timeout cleared, and the observer
callback reached. -/
structure DispatchOutcome where
  remaining : List Waiter
  resolvedWids : List Nat
  clearedWids : List Nat
  observed : Option ObserverEvent

/-- HubClient.resolvePendingRequest: iterate the pendingRequests Map in
insertion order, delete the FIRST entry and clear its timeout before any
predicate is consulted, call its stored resolve (whose wrapper resolves
the promise only if the filter matches, and otherwise discards the
message), and break.  Returns (remaining, promise-resolved wids,
deleted-and-timeout-cleared wids). -/
def resolvePendingRequest (pendings : List Waiter) (m : HubMessage) :
    List Waiter × List Nat × List Nat :=
  match pendings with
  | [] => ([], [], [])
  | w :: rest => (rest, if w.filter m then [w.wid] else [], [w.wid])

/-- HubClient.handleMessage: parse, run the observer switch, then
resolvePendingRequest. -/
def clientHandleMessage (pendings : List Waiter) (m : HubMessage) :
    DispatchOutcome :=
  let r := resolvePendingRequest pendings m
  ⟨r.1, r.2.1, r.2.2, observerDispatch m⟩

/-- Socket delivery of one inbound message: the installed listener is
the checkFilter of the most recently registered waiter when one is
pending (it deletes and resolves that waiter if its own filter matches),
and in every case the original handleMessage then runs. -/
def onWsIncoming (pendings : List Waiter) (m : HubMessage) :
    DispatchOutcome :=
  match pendings.getLast? with
  | some w =>
    if w.filter m then
      let out := clientHandleMessage (deleteWaiter pendings w.wid) m
      ⟨out.remaining, w.wid :: out.resolvedWids,
        w.wid :: out.clearedWids, out.observed⟩
    else
      clientHandleMessage pendings m
  | none => clientHandleMessage pendings m

-- Hub server (hub-server.ts): LEAVE handling.

/-- Per-connection state kept by the hub. -/
structure ClientConnection where
  memberId : Option String
  teamId : Option JStr
  lastPing : Int
  deriving Repr, DecidableEq

/-- HubServer.removeMember: mark the member OFFLINE and save it, remove
it from the team and save the team, then broadcast MEMBER_LEFT to the
remaining team members (delivery additionally requires a live socket,
which no claim here depends on). -/
def removeMember (st : SystemState) (memberId : String) (teamId : JStr) :
    SystemState × List (String × HubMessage) :=
  let st1 := match mapGet st.members memberId with
    | some member =>
      { st with members := mapSet st.members memberId member.goOffline }
    | none => st
  match mapGet st1.teams teamId with
  | some team =>
    let team1 := team.removeMember memberId
    let st2 := { st1 with teams := mapSet st1.teams team1.id team1 }
    let recipients := team1.getOtherMemberIds memberId
    (st2, recipients.map fun r =>
      (r, HubMessage.memberLeft memberId (String.mk teamId)))
  | none => (st1, [])

/-- JSON value actually sent for the LEFT reply: the source builds the
object with memberId read from the connection AFTER the binding was
cleared, defeating the non-null assertion, and JSON.stringify drops an
undefined-valued field. -/
def leftReplyJson : Option String → Json
  | some m => .obj [("type", .str "LEFT"), ("memberId", .str m)]
  | none => .obj [("type", .str "LEFT")]

/-- Result of HubServer.handleLeave. -/
structure LeaveOutcome where
  state : SystemState
  connection : ClientConnection
  reply : Json
  broadcasts : List (String × HubMessage)

/-- HubServer.handleLeave: when the connection is bound, remove the
member and clear the binding; then send LEFT with the memberId read
from the (now cleared) connection. -/
def handleLeave (st : SystemState) (conn : ClientConnection) :
    LeaveOutcome :=
  match conn.memberId, conn.teamId with
  | some mid, some tid =>
    let r := removeMember st mid tid
    let conn1 := { conn with memberId := none, teamId := none }
    ⟨r.1, conn1, leftReplyJson conn1.memberId, r.2⟩
  | _, _ => ⟨st, conn, leftReplyJson conn.memberId, []⟩

-- Claim theorems.

/-- Claim C6: MessageContent.create fails with a validation error
exactly when the trimmed text is empty or longer than 50,000 characters;
on success the value holds the trimmed text unchanged together with the
given format (so a trimmed text of exactly 50,000 characters is
accepted). -/
theorem messageContent_create_spec (text : JStr) (format : MessageFormat) :
    ((∃ f m, MessageContent.create text format =
        .error (.validationError f m)) ↔
      ((jtrim text).isEmpty = true ∨
        (jtrim text).length > maxMessageLength)) ∧
    (∀ mc, MessageContent.create text format = .ok mc →
      mc = ⟨jtrim text, format⟩) ∧
    (¬((jtrim text).isEmpty = true ∨
        (jtrim text).length > maxMessageLength) →
      MessageContent.create text format = .ok ⟨jtrim text, format⟩) := by
  by_cases h1 : (jtrim text).isEmpty
  · simp [MessageContent.create, h1]
  · by_cases h2 : (jtrim text).length > maxMessageLength
    · simp [MessageContent.create, h1, h2]
    · simp [MessageContent.create, h1, h2]

/-- Witness for C6: a concrete success keeping the trimmed text, and a
concrete empty-after-trim failure. -/
theorem messageContent_create_spec_witness :
    MessageContent.create " hi ".toList .plain = .ok ⟨"hi".toList, .plain⟩ ∧
    (∃ f m, MessageContent.create "   ".toList .markdown =
      .error (.validationError f m)) := by
  constructor
  · exact (messageContent_create_spec " hi ".toList .plain).2.2 (by decide)
  · exact (messageContent_create_spec "   ".toList .markdown).1.mpr
      (by decide)

/-- Claim C7: for text longer than 100 characters the preview is the
first 97 characters followed by three dots, hence exactly 100 characters
and ending in the three dots; for text of at most 100 characters the
preview is the text verbatim. -/
theorem messageContent_preview_spec (mc : MessageContent) :
    (mc.text.length > 100 →
      MessageContent.preview mc = mc.text.take 97 ++ "...".toList ∧
      (MessageContent.preview mc).length = 100 ∧
      "...".toList <:+ MessageContent.preview mc) ∧
    (mc.text.length ≤ 100 → MessageContent.preview mc = mc.text) := by
  constructor
  · intro h
    have hnle : ¬ mc.text.length ≤ 100 := by omega
    refine ⟨by simp [MessageContent.preview, hnle], ?_, ?_⟩
    · simp only [MessageContent.preview, hnle, if_false, ite_false]
      simp [List.length_take]
      omega
    · exact ⟨mc.text.take 97, by simp [MessageContent.preview, hnle]⟩
  · intro h
    simp [MessageContent.preview, h]

/-- Witness for C7: a 101-character text yields a 100-character preview,
and a short text is returned verbatim. -/
theorem messageContent_preview_spec_witness :
    (MessageContent.preview ⟨List.replicate 101 'a', .plain⟩).length = 100 ∧
    MessageContent.preview ⟨"hi".toList, .plain⟩ = "hi".toList := by
  constructor
  · exact ((messageContent_preview_spec
      ⟨List.replicate 101 'a', .plain⟩).1 (by simp)).2.1
  · exact (messageContent_preview_spec ⟨"hi".toList, .plain⟩).2 (by decide)

/-- Claim C4: markAsAnswered succeeds (recording ANSWERED, answeredAt
and the answering member) exactly when the status is PENDING and
otherwise raises QuestionAlreadyAnswered; marking answered twice fails
the second time; markAsTimedOut and markAsCancelled transition only a
PENDING question and are error-free no-ops in every other status. -/
theorem question_transition_spec (q : Question) (answeredBy : String)
    (now : Int) :
    (q.status = .pending →
      q.markAsAnswered answeredBy now = .ok { q with
        status := .answered
        answeredAt := some now
        answeredByMemberId := some answeredBy }) ∧
    (q.status ≠ .pending →
      q.markAsAnswered answeredBy now =
        .error (.questionAlreadyAnsweredError q.id)) ∧
    (∀ q2, q.markAsAnswered answeredBy now = .ok q2 →
      ∀ b2 n2, q2.markAsAnswered b2 n2 =
        .error (.questionAlreadyAnsweredError q2.id)) ∧
    (q.status = .pending →
      q.markAsTimedOut = { q with status := .timeout }) ∧
    (q.status ≠ .pending → q.markAsTimedOut = q) ∧
    (q.status = .pending →
      q.markAsCancelled = { q with status := .cancelled }) ∧
    (q.status ≠ .pending → q.markAsCancelled = q) := by
  refine ⟨?_, ?_, ?_, ?_, ?_, ?_, ?_⟩
  · intro hp
    simp [Question.markAsAnswered, Question.canBeAnswered, hp]
  · intro hp
    simp [Question.markAsAnswered, Question.canBeAnswered, hp]
  · intro q2 h b2 n2
    by_cases hp : q.status = .pending
    · simp [Question.markAsAnswered, Question.canBeAnswered, hp] at h
      rw [← h]
      simp [Question.markAsAnswered, Question.canBeAnswered]
    · simp [Question.markAsAnswered, Question.canBeAnswered, hp] at h
  · intro hp
    simp [Question.markAsTimedOut, hp]
  · intro hp
    simp [Question.markAsTimedOut, hp]
  · intro hp
    simp [Question.markAsCancelled, hp]
  · intro hp
    simp [Question.markAsCancelled, hp]

/-- Witness for C4: a concrete pending question is answered, and
markAsTimedOut on the answered result changes nothing. -/
theorem question_transition_spec_witness :
    Question.markAsAnswered
      ⟨"q1", "m1", ['t'], ⟨['h'], .plain⟩, 0, .pending, none, none⟩
      "m2" 5 =
      .ok ⟨"q1", "m1", ['t'], ⟨['h'], .plain⟩, 0, .answered, some 5,
        some "m2"⟩ ∧
    Question.markAsTimedOut
      ⟨"q1", "m1", ['t'], ⟨['h'], .plain⟩, 0, .answered, some 5,
        some "m2"⟩ =
      ⟨"q1", "m1", ['t'], ⟨['h'], .plain⟩, 0, .answered, some 5,
        some "m2"⟩ := by
  constructor
  · exact (question_transition_spec
      ⟨"q1", "m1", ['t'], ⟨['h'], .plain⟩, 0, .pending, none, none⟩
      "m2" 5).1 rfl
  · exact (question_transition_spec
      ⟨"q1", "m1", ['t'], ⟨['h'], .plain⟩, 0, .answered, some 5,
        some "m2"⟩ "m2" 5).2.2.2.2.1 (by decide)

/-- Claim C10: markTimedOut transitions exactly the stored questions
that are PENDING and strictly older than olderThanMs to TIMEOUT (leaving
every other question, and every other field, unchanged) and returns the
number of questions so transitioned. -/
theorem questionRepoMarkTimedOut_spec (now olderThanMs : Int)
    (st : QuestionRepoState) :
    (questionRepoMarkTimedOut now olderThanMs st).1 =
      st.map (fun kv =>
        if kv.2.status = .pending ∧ now - kv.2.createdAt > olderThanMs then
          (kv.1, { kv.2 with status := .timeout })
        else kv) ∧
    (questionRepoMarkTimedOut now olderThanMs st).2 =
      (st.filter fun kv =>
        decide (kv.2.status = .pending) &&
          decide (now - kv.2.createdAt > olderThanMs)).length := by
  induction st with
  | nil => exact ⟨rfl, rfl⟩
  | cons kv rest ih =>
    obtain ⟨k, q⟩ := kv
    by_cases hp : q.status = .pending
    · by_cases ha : now - q.createdAt > olderThanMs
      · constructor
        · simp [questionRepoMarkTimedOut, Question.isPending, hp, ha,
            Question.markAsTimedOut, ih.1]
        · simp [questionRepoMarkTimedOut, Question.isPending, hp, ha,
            ih.2]
      · constructor
        · simp [questionRepoMarkTimedOut, Question.isPending, hp, ha,
            ih.1]
        · simp [questionRepoMarkTimedOut, Question.isPending, hp, ha,
            ih.2]
    · constructor
      · simp [questionRepoMarkTimedOut, Question.isPending, hp, ih.1]
      · simp [questionRepoMarkTimedOut, Question.isPending, hp, ih.2]

/-- Claim C3 counterexample: a name whose normalized form starts with a
digit is NOT rejected by team-id construction; TeamId.create and the
repository getOrCreate both produce the id "1team" even though
TeamId.isValid classifies it as invalid (the regex predicate is never
consulted during construction). -/
theorem teamId_rejection_counterexample :
    createTeamId "1team".toList = "1team".toList ∧
    TeamId.isValid "1team".toList = false ∧
    teamRepoGetOrCreate ⟨[]⟩ "1team".toList 0 =
      .ok (⟨"1team".toList, "1team".toList, 0, []⟩,
        ⟨[("1team".toList, ⟨"1team".toList, "1team".toList, 0, []⟩)]⟩) :=
  ⟨rfl, rfl, rfl⟩

/-- Claim C3 (amended): team-id construction lowercases and trims, so it
is idempotent and case-collapsing — "Frontend", "FRONTEND" and
"frontend" all yield the id "frontend" and get-or-create under any of
these casings resolves to the one team — but names with invalid
characters are not rejected: construction always produces the
lowercased-trimmed id, and only the separate (uncalled) predicate
TeamId.isValid classifies such ids as invalid. -/
theorem teamId_normalization_spec :
    createTeamId "Frontend".toList = "frontend".toList ∧
    createTeamId "FRONTEND".toList = "frontend".toList ∧
    createTeamId "frontend".toList = "frontend".toList ∧
    (∀ name : JStr, createTeamId (createTeamId name) = createTeamId name) ∧
    teamRepoGetOrCreate ⟨[]⟩ "Frontend".toList 0 =
      .ok (⟨"frontend".toList, "Frontend".toList, 0, []⟩,
        ⟨[("frontend".toList,
          ⟨"frontend".toList, "Frontend".toList, 0, []⟩)]⟩) ∧
    teamRepoGetOrCreate
      ⟨[("frontend".toList,
        ⟨"frontend".toList, "Frontend".toList, 0, []⟩)]⟩
      "FRONTEND".toList 5 =
      .ok (⟨"frontend".toList, "Frontend".toList, 0, []⟩,
        ⟨[("frontend".toList,
          ⟨"frontend".toList, "Frontend".toList, 0, []⟩)]⟩) ∧
    TeamId.isValid "my_team".toList = false ∧
    createTeamId "my_team".toList = "my_team".toList :=
  ⟨rfl, rfl, rfl, createTeamId_idem, rfl, rfl, rfl, rfl⟩

/-- Claim C5: AskQuestion fails with MemberNotFound when the asking
member does not resolve; with TeamNotFound when (the member resolves
and) the target team does not; and with the own-team validation error
when the resolved target team equals the asker's team — for every
content string, since the team check is decided before content
construction. -/
theorem askQuestion_failure_spec (st : SystemState)
    (input : AskQuestionInput) (qid : String) (now : Int) :
    (mapGet st.members input.fromMemberId = none →
      askQuestionExecute st input qid now =
        .error (.memberNotFoundError input.fromMemberId)) ∧
    (∀ member, mapGet st.members input.fromMemberId = some member →
      mapGet st.teams (createTeamId input.toTeamName) = none →
      askQuestionExecute st input qid now =
        .error (.teamNotFoundError input.toTeamName)) ∧
    (∀ member, mapGet st.members input.fromMemberId = some member →
      (∃ t, mapGet st.teams (createTeamId input.toTeamName) = some t) →
      member.teamId = createTeamId input.toTeamName →
      askQuestionExecute st input qid now =
        .error (.validationError "toTeamName"
          "Cannot ask question to your own team")) := by
  refine ⟨?_, ?_, ?_⟩
  · intro h
    simp [askQuestionExecute, h]
  · intro member hm ht
    simp [askQuestionExecute, hm, ht]
  · rintro member hm ⟨t, ht⟩ hteam
    simp [askQuestionExecute, hm, ht, hteam]

/-- Witness for C5: a member of team frontend asking its own team (under
different casing, with content that is itself invalid) fails with the
own-team validation error. -/
theorem askQuestion_failure_spec_witness :
    askQuestionExecute
      ⟨[("m1", ⟨"m1", "frontend".toList, "Alice".toList, 0, .online, 0⟩)],
       [("frontend".toList,
         ⟨"frontend".toList, "frontend".toList, 0, ["m1"]⟩)],
       []⟩
      ⟨"m1", "Frontend".toList, [], none⟩ "q9" 100 =
      .error (.validationError "toTeamName"
        "Cannot ask question to your own team") :=
  (askQuestion_failure_spec
    ⟨[("m1", ⟨"m1", "frontend".toList, "Alice".toList, 0, .online, 0⟩)],
     [("frontend".toList,
       ⟨"frontend".toList, "frontend".toList, 0, ["m1"]⟩)],
     []⟩
    ⟨"m1", "Frontend".toList, [], none⟩ "q9" 100).2.2
    ⟨"m1", "frontend".toList, "Alice".toList, 0, .online, 0⟩ rfl
    ⟨⟨"frontend".toList, "frontend".toList, 0, ["m1"]⟩, rfl⟩ rfl

/-- Claim C1 evaluation at a failing input: the repository holds one
question addressed to team dev whose status is ANSWERED; the member and
team exist and includeAnswered is true, yet GetInbox returns an empty
question list with totalCount 0 — the fetch goes through
findPendingByTeamId, so answered questions can never be included. -/
theorem getInbox_includeAnswered_eval :
    getInboxExecute
      ⟨[("m1", ⟨"m1", "dev".toList, "Alice".toList, 0, .online, 0⟩),
        ("m2", ⟨"m2", "qa".toList, "Bob".toList, 0, .online, 0⟩)],
       [("dev".toList, ⟨"dev".toList, "dev".toList, 0, ["m1"]⟩),
        ("qa".toList, ⟨"qa".toList, "qa".toList, 0, ["m2"]⟩)],
       [("q1", ⟨"q1", "m2", "dev".toList, ⟨"hello".toList, .markdown⟩, 10,
          .answered, some 20, some "m1"⟩)]⟩
      "m1" "dev".toList true 100 =
      .ok ⟨"dev".toList, "dev".toList, [], 0, 0⟩ ∧
    (⟨"q1", "m2", "dev".toList, ⟨"hello".toList, .markdown⟩, 10,
      .answered, some 20, some "m1"⟩ : Question).toTeamId = "dev".toList ∧
    (⟨"q1", "m2", "dev".toList, ⟨"hello".toList, .markdown⟩, 10,
      .answered, some 20, some "m1"⟩ : Question).status = .answered :=
  ⟨rfl, rfl, rfl⟩

/-- Filter of the ANSWER wait registered by HubClient.ask: matches
exactly the ANSWER messages. -/
def answerTypeFilter : HubMessage → Bool
  | .answer _ _ _ _ _ _ => true
  | _ => false

/-- Claim C2 evaluation at a failing input: one pending waiter whose
predicate matches only ANSWER messages receives an inbound PONG; the
predicate does not match, yet the waiter is deleted from the map and its
timeout cleared without its promise being resolved (so it can never
settle), instead of being left registered as the claim states. -/
theorem hubClient_dispatch_eval :
    onWsIncoming [⟨1, answerTypeFilter⟩]
      (.pong "2026-01-01T00:00:00.000Z") = ⟨[], [], [1], none⟩ ∧
    answerTypeFilter (.pong "2026-01-01T00:00:00.000Z") = false :=
  ⟨rfl, rfl⟩

/-- Claim C9 evaluation at a failing input: a connection bound to member
m-1 of team frontend sends LEAVE; the member is removed and MEMBER_LEFT
(carrying the id) goes to the remaining member, but the LEFT reply is
serialized from the already-cleared binding and carries no memberId
field at all. -/
theorem handleLeave_eval :
    (handleLeave
      ⟨[("m-1", ⟨"m-1", "frontend".toList, "Alice".toList, 0, .online, 0⟩)],
       [("frontend".toList,
         ⟨"frontend".toList, "frontend".toList, 0, ["m-1", "m-2"]⟩)],
       []⟩
      ⟨some "m-1", some "frontend".toList, 0⟩).reply =
      Json.obj [("type", Json.str "LEFT")] ∧
    (handleLeave
      ⟨[("m-1", ⟨"m-1", "frontend".toList, "Alice".toList, 0, .online, 0⟩)],
       [("frontend".toList,
         ⟨"frontend".toList, "frontend".toList, 0, ["m-1", "m-2"]⟩)],
       []⟩
      ⟨some "m-1", some "frontend".toList, 0⟩).broadcasts =
      [("m-2", .memberLeft "m-1" "frontend")] :=
  ⟨rfl, rfl⟩

/-- Claim C8: serializing any client or hub protocol message and parsing
the result with the corresponding parse function reproduces the original
message field-for-field (ISO-8601 timestamps are plain string fields of
the wire types and survive unchanged). -/
theorem protocol_roundTrip :
    (∀ m : ClientMessage,
      parseClientMessage (serializeClientMessage m) = some m) ∧
    (∀ m : HubMessage,
      parseHubMessage (serializeHubMessage m) = some m) := by
  constructor
  · intro m
    cases m with
    | join a b => rfl
    | leave => rfl
    | ask a b f r => cases f <;> rfl
    | reply a b f => cases f <;> rfl
    | ping => rfl
    | getInbox r => rfl
  · intro m
    cases m with
    | joined member count =>
      obtain ⟨a, b, c, d, st⟩ := member
      cases st <;> rfl
    | left a => rfl
    | memberJoined member =>
      obtain ⟨a, b, c, d, st⟩ := member
      cases st <;> rfl
    | memberLeft a b => rfl
    | question qid member content f ca =>
      obtain ⟨a, b, c, d, st⟩ := member
      cases st <;> cases f <;> rfl
    | answer qid member content f aa rid =>
      obtain ⟨a, b, c, d, st⟩ := member
      cases st <;> cases f <;> cases rid <;> rfl
    | questionSent a b status r => cases status <;> rfl
    | inbox qs t p r =>
      have key : parseHubMessage (serializeHubMessage (.inbox qs t p r)) =
          (parseInboxList (qs.map InboxQuestionInfo.toJson)).bind
            (fun questions => some (HubMessage.inbox questions t p r)) :=
        rfl
      rw [key, parseInboxList_map_toJson]
      rfl
    | pong t => rfl
    | error c msg rid => cases rid <;> rfl

end ClaudeCollab
